import Mathlib

/-!
Verification of the r/place 2022 tooling (`src/tooling.py`).

The Python module is shallowly embedded: pure functions become Lean
functions, the stateful `Analysis` objects become explicit state passing,
and code that can raise becomes `Option`/`Except`-valued.  Python `float`
arithmetic in the intensity mapping is idealised as exact rational
arithmetic.  The external collaborators (gzip framing, the `csv` reader,
`PIL`/`numpy` image assembly) are out of scope: the replay driver consumes
a list of already-split rows, and an image is modelled as its grid of
rows of RGB values.
-/

namespace RPlace

/-- Canvas width in pixels (`CANVAS_WIDTH`, src/tooling.py line 12). -/
def CANVAS_WIDTH : Nat := 2000

/-- Canvas height in pixels (`CANVAS_HEIGHT`, line 13). -/
def CANVAS_HEIGHT : Nat := 2000

/-- The date-and-time part of a timestamp, the value produced by
`datetime.fromisoformat` applied to the 19-character prefix of the
timestamp field (line 136). -/
structure Timestamp where
  year : Nat
  month : Nat
  day : Nat
  hour : Nat
  minute : Nat
  second : Nat
deriving DecidableEq

/-- Numeric value of a list of decimal digit characters. -/
def digitsToNat (cs : List Char) : Nat :=
  cs.foldl (fun n c => 10 * n + (c.toNat - 48)) 0

/-- `true` iff the list is nonempty and every character is a decimal digit. -/
def allDigits (cs : List Char) : Bool :=
  !cs.isEmpty && cs.all (fun c => c.isDigit)

/-- Model of `datetime.fromisoformat(s[0:19])` (line 136 with
`DATETIME_CHARS = 19`): the first 19 characters must match
`YYYY-MM-DD*HH:MM:SS` — decimal digits at the data positions, `-` at
positions 4 and 7, an arbitrary one-character separator at position 10,
`:` at positions 13 and 16 — and the fields must be in range (the
day-of-month upper bound is simplified to 31). -/
def fromisoformat19 (s : String) : Option Timestamp :=
  let cs := s.data.take 19
  let c := fun i => cs.getD i ' '
  let dig := fun i => (c i).isDigit
  if cs.length = 19
      && dig 0 && dig 1 && dig 2 && dig 3 && c 4 == '-' && dig 5 && dig 6
      && c 7 == '-' && dig 8 && dig 9 && dig 11 && dig 12 && c 13 == ':'
      && dig 14 && dig 15 && c 16 == ':' && dig 17 && dig 18 then
    let month := digitsToNat [c 5, c 6]
    let day := digitsToNat [c 8, c 9]
    let hour := digitsToNat [c 11, c 12]
    let minute := digitsToNat [c 14, c 15]
    let second := digitsToNat [c 17, c 18]
    if 1 ≤ month && month ≤ 12 && 1 ≤ day && day ≤ 31
        && hour ≤ 23 && minute ≤ 59 && second ≤ 59 then
      some ⟨digitsToNat [c 0, c 1, c 2, c 3], month, day, hour, minute, second⟩
    else none
  else none

/-- Model of Python `int(token)` on one geometry token (line 139): an
optional sign followed by one or more decimal digits.  (Surrounding
whitespace and underscore digit grouping, which the data never uses, are
not modelled.) -/
def parse_int (cs : List Char) : Option Int :=
  match cs with
  | [] => none
  | c :: rest =>
    if c == '-' then
      if allDigits rest then some (-(digitsToNat rest : Int)) else none
    else if c == '+' then
      if allDigits rest then some ((digitsToNat rest : Int)) else none
    else
      if allDigits (c :: rest) then some ((digitsToNat (c :: rest) : Int)) else none

/-- Model of Python `s.split(',')` (line 139): splitting on every comma,
keeping empty pieces, so `"".split(',') = [""]`. -/
def splitOnComma : List Char → List (List Char)
  | [] => [[]]
  | c :: rest =>
    match splitOnComma rest with
    | [] => []
    | cur :: gs => if c == ',' then [] :: cur :: gs else (c :: cur) :: gs

/-- Model of the list comprehension
`[int(c) for c in row[COORDINATE_COLUMN].split(',')]` applied to the
already-split tokens: the first token that fails `int` aborts the whole
list (a raised `ValueError`). -/
def parse_int_list : List (List Char) → Option (List Int)
  | [] => some []
  | t :: rest =>
    match parse_int t with
    | none => none
    | some v => (parse_int_list rest).map (fun vs => v :: vs)

/-- The full geometry-field parse of line 139:
`[int(c) for c in field.split(',')]`. -/
def parse_coordinates (field : String) : Option (List Int) :=
  parse_int_list (splitOnComma field.data)

/-- Geometry of one placement: the tagged variant dispatched on at lines
141-146. -/
inductive Geometry where
  | pixel (x y : Int)
  | rectangle (x1 y1 x2 y2 : Int)
deriving DecidableEq

/-- One decoded placement record (lines 136-146). -/
structure Event where
  timestamp : Timestamp
  redditor : String
  color : String
  geometry : Geometry
deriving DecidableEq

/-- Decoding of one CSV row, lines 136-146 of `perform_analysis`:
read the four columns (a short row is an `IndexError`), parse the
19-character timestamp prefix, parse the comma-separated geometry field
into integers, then classify: exactly 4 integers form a rectangle, and
otherwise the tuple unpacking `x, y = coordinates` succeeds only for
exactly 2 integers (any other count raises a `ValueError`). -/
def decode_record (row : List String) : Except String Event :=
  match row with
  | ts :: redditor :: color :: coordinateField :: _ =>
    match fromisoformat19 ts with
    | none => .error "ValueError: invalid isoformat string"
    | some timestamp =>
      match parse_coordinates coordinateField with
      | none => .error "ValueError: invalid literal for int"
      | some coordinates =>
        if coordinates.length = 4 then
          match coordinates with
          | [x1, y1, x2, y2] => .ok ⟨timestamp, redditor, color, .rectangle x1 y1 x2 y2⟩
          | _ => .error "unreachable: length is 4"
        else
          match coordinates with
          | [x, y] => .ok ⟨timestamp, redditor, color, .pixel x y⟩
          | _ => .error "ValueError: cannot unpack coordinates"
  | _ => .error "IndexError: list index out of range"

/-- The `Analysis` capability (class `Analysis`, lines 15-101), as a state
machine: the two handlers update the aggregate state, `result` reads the
final value out of it. -/
structure AnalysisM (σ R : Type) where
  on_pixel : σ → Timestamp → String → Int → Int → String → σ
  on_rectangle : σ → Timestamp → String → Int → Int → Int → Int → String → σ
  result : σ → R

/-- The default no-op `Analysis` (lines 15-101): both handlers `pass` and
`result` returns the never-assigned `_result`, i.e. `None`. -/
def defaultAnalysis : AnalysisM Unit Unit where
  on_pixel := fun s _ _ _ _ _ => s
  on_rectangle := fun s _ _ _ _ _ _ _ => s
  result := fun _ => ()

/-- Ghost record of one observable call the replay driver makes on its
analysis: a handler invocation with its exact arguments, or the final
`result()` call. -/
inductive Call where
  | on_pixel (timestamp : Timestamp) (redditor : String) (x y : Int) (color : String)
  | on_rectangle (timestamp : Timestamp) (redditor : String) (x1 y1 x2 y2 : Int) (color : String)
  | result
deriving DecidableEq

/-- The handler call lines 141-146 make for a decoded event. -/
def callOf (e : Event) : Call :=
  match e.geometry with
  | .pixel x y => .on_pixel e.timestamp e.redditor x y e.color
  | .rectangle x1 y1 x2 y2 => .on_rectangle e.timestamp e.redditor x1 y1 x2 y2 e.color

/-- The state update lines 141-146 perform for a decoded event. -/
def dispatch {σ R : Type} (a : AnalysisM σ R) (s : σ) (e : Event) : σ :=
  match e.geometry with
  | .pixel x y => a.on_pixel s e.timestamp e.redditor x y e.color
  | .rectangle x1 y1 x2 y2 => a.on_rectangle s e.timestamp e.redditor x1 y1 x2 y2 e.color

/-- The loop of `perform_analysis` (lines 134-148).  Alongside the Python
return value (`Except` capturing a propagated decode failure), the second
component is ghost instrumentation recording, in order, every call the
driver makes on the analysis.  A decode failure aborts the loop at once:
nothing further is dispatched and `result` is never called. -/
def perform_analysis_go {σ R : Type} (a : AnalysisM σ R) :
    List (List String) → σ → List Call → Except String R × List Call
  | [], s, tr => (.ok (a.result s), tr ++ [.result])
  | row :: rest, s, tr =>
    match decode_record row with
    | .error e => (.error e, tr)
    | .ok ev => perform_analysis_go a rest (dispatch a s ev) (tr ++ [callOf ev])

/-- `perform_analysis(analysis, gzip_path)` (lines 104-148), with the
already-decompressed, already-CSV-split rows as input. -/
def perform_analysis {σ R : Type} (a : AnalysisM σ R) (s₀ : σ)
    (rows : List (List String)) : Except String R × List Call :=
  perform_analysis_go a rows s₀ []

/-- Decode every row of an event source; `none` as soon as some record
fails to decode.  (Specification-side helper used to say that a source is
well-formed, or that some record of it is malformed.) -/
def decode_all : List (List String) → Option (List Event)
  | [] => some []
  | r :: rest =>
    match decode_record r with
    | .error _ => none
    | .ok ev => (decode_all rest).map (fun evs => ev :: evs)

/-- A counting analysis: the state counts `(pixel placements, rectangle
placements)` and `result` returns the pair. -/
def countingAnalysis : AnalysisM (Nat × Nat) (Nat × Nat) where
  on_pixel := fun s _ _ _ _ _ => (s.1 + 1, s.2)
  on_rectangle := fun s _ _ _ _ _ _ _ => (s.1, s.2 + 1)
  result := fun s => s

/-- The instance state of a `Logger` (lines 159-171): the wrapped
delegate's state, the two instance attributes, and a ghost `console`
recording the status lines printed so far, in order. -/
structure LoggerState (σ : Type) where
  delegate_state : σ
  rows_between_updates : Nat
  rows_processed : Nat
  console : List String

/-- `MESSAGE_LENGTH` (line 174). -/
def MESSAGE_LENGTH : Nat := 30

/-- Python `message.ljust(width)`: pad on the right with spaces up to
`width`; longer strings are returned unchanged. -/
def ljust (s : String) (width : Nat) : String :=
  s ++ String.mk (List.replicate (width - s.length) ' ')

/-- `Logger.log` (lines 173-175): print the padded message; modelled as
appending it to the ghost console. -/
def Logger.log (console : List String) (message : String) : List String :=
  console ++ [ljust message MESSAGE_LENGTH]

/-- `Logger.on_any_row` (lines 177-181): increment `rows_processed`, then
log a progress line when the new count is an exact multiple of
`rows_between_updates`. -/
def Logger.on_any_row {σ : Type} (ls : LoggerState σ) : LoggerState σ :=
  let n := ls.rows_processed + 1
  if n % ls.rows_between_updates = 0 then
    { ls with rows_processed := n,
              console := Logger.log ls.console (toString n ++ " rows processed") }
  else
    { ls with rows_processed := n }

/-- The freshly constructed `Logger(delegate, rows_between_updates)`
(lines 159-171): `rows_processed` starts at 0, nothing printed yet. -/
def Logger.init {σ : Type} (s₀ : σ) (interval : Nat) : LoggerState σ :=
  ⟨s₀, interval, 0, []⟩

/-- The `Logger` wrapper (lines 150-195) around an analysis: each handler
forwards to the delegate unchanged and then runs `on_any_row`; `result`
returns the delegate's result unchanged (its two status lines are console
output only, not part of the value). -/
def loggerAnalysis {σ R : Type} (a : AnalysisM σ R) : AnalysisM (LoggerState σ) R where
  on_pixel := fun ls t r x y c =>
    Logger.on_any_row { ls with delegate_state := a.on_pixel ls.delegate_state t r x y c }
  on_rectangle := fun ls t r x1 y1 x2 y2 c =>
    Logger.on_any_row { ls with delegate_state := a.on_rectangle ls.delegate_state t r x1 y1 x2 y2 c }
  result := fun ls => a.result ls.delegate_state

/-- An analysis whose handlers may raise, used to examine how `Logger`
behaves around a failing delegate (only the handlers matter there). -/
structure AnalysisE (σ : Type) where
  on_pixel : σ → Timestamp → String → Int → Int → String → Except String σ
  on_rectangle : σ → Timestamp → String → Int → Int → Int → Int → String → Except String σ

/-- `Logger.on_pixel` (lines 183-185) over a delegate that may raise: the
delegate is called first; if it raises, the exception propagates before
`on_any_row` runs, so the logger's own state is returned unchanged
alongside the error.  Otherwise `on_any_row` runs on the updated state. -/
def LoggerE.on_pixel {σ : Type} (d : AnalysisE σ) (ls : LoggerState σ)
    (t : Timestamp) (r : String) (x y : Int) (c : String) :
    LoggerState σ × Option String :=
  match d.on_pixel ls.delegate_state t r x y c with
  | .error e => (ls, some e)
  | .ok s' => (Logger.on_any_row { ls with delegate_state := s' }, none)

/-- `Logger.on_rectangle` (lines 187-189) over a delegate that may raise;
see `LoggerE.on_pixel`. -/
def LoggerE.on_rectangle {σ : Type} (d : AnalysisE σ) (ls : LoggerState σ)
    (t : Timestamp) (r : String) (x1 y1 x2 y2 : Int) (c : String) :
    LoggerState σ × Option String :=
  match d.on_rectangle ls.delegate_state t r x1 y1 x2 y2 c with
  | .error e => (ls, some e)
  | .ok s' => (Logger.on_any_row { ls with delegate_state := s' }, none)

/-- Feed one event to the logger-wrapped fallible delegate. -/
def LoggerE.dispatch {σ : Type} (d : AnalysisE σ) (ls : LoggerState σ) (e : Event) :
    LoggerState σ × Option String :=
  match e.geometry with
  | .pixel x y => LoggerE.on_pixel d ls e.timestamp e.redditor x y e.color
  | .rectangle x1 y1 x2 y2 =>
    LoggerE.on_rectangle d ls e.timestamp e.redditor x1 y1 x2 y2 e.color

/-- Feed a sequence of events to the logger-wrapped fallible delegate,
stopping at the first raised exception. -/
def LoggerE.run {σ : Type} (d : AnalysisE σ) :
    List Event → LoggerState σ → LoggerState σ × Option String
  | [], ls => (ls, none)
  | e :: rest, ls =>
    match LoggerE.dispatch d ls e with
    | (ls', some err) => (ls', some err)
    | (ls', none) => LoggerE.run d rest ls'

/-- A delegate whose handlers raise exactly when the leading x-coordinate
is negative (used to exercise the failing-delegate path). -/
def thresholdDelegate : AnalysisE Unit where
  on_pixel := fun _ _ _ x _ _ => if x < 0 then .error "negative x" else .ok ()
  on_rectangle := fun _ _ _ x1 _ _ _ _ => if x1 < 0 then .error "negative x1" else .ok ()

/-- Append one value to the last row of the grid (the Python `row` variable
aliases the most recently appended list, so `row.append(...)` mutates the
last element of `rgbs`). -/
def appendToLast {β : Type} (y : β) : List (List β) → List (List β)
  | [] => []
  | [r] => [r ++ [y]]
  | r :: rs => r :: appendToLast y rs

/-- The loop of `generate_image` (lines 200-205): at every index divisible
by `CANVAS_WIDTH` a fresh empty row is appended, and each mapped value is
appended to the current (last) row. -/
def generate_image_go {α β : Type} (rgb_provider : α → β) :
    List α → Nat → List (List β) → List (List β)
  | [], _, rgbs => rgbs
  | v :: rest, k, rgbs =>
    let rgbs' := if k % CANVAS_WIDTH = 0 then rgbs ++ [[]] else rgbs
    generate_image_go rgb_provider rest (k + 1) (appendToLast (rgb_provider v) rgbs')

/-- `generate_image(array, rgb_provider)` (lines 197-207).  The final
`Image.fromarray(np.array(rgbs, dtype=np.uint8))` is external (`numpy` /
`PIL`); the image is modelled as the grid `rgbs` itself, pixel `(x, y)`
being row `y`, column `x`. -/
def generate_image {α β : Type} (array : List α) (rgb_provider : α → β) :
    List (List β) :=
  generate_image_go rgb_provider array 0 []

/-- Python `min(array)` on a nonempty list (junk value 0 on `[]`, where
Python raises; `generate_intensity_image` treats `[]` separately). -/
def list_min : List ℚ → ℚ
  | [] => 0
  | a :: rest => rest.foldl min a

/-- Python `max(array)` on a nonempty list (junk value 0 on `[]`). -/
def list_max : List ℚ → ℚ
  | [] => 0
  | a :: rest => rest.foldl max a

/-- The `rgb_provider` closure of `generate_intensity_image` (lines
216-218), exactly as written in the source:
`value = scale * intensity - offset` (note: `offset` is subtracted outside
the product). -/
def intensity_rgb (scale offset intensity : ℚ) : ℚ × ℚ × ℚ :=
  let value := scale * intensity - offset
  (value, value, value)

/-- `generate_intensity_image(array)` (lines 209-220), with Python float
arithmetic idealised as exact rationals: `offset = min(array)`,
`range = max(array) - offset`, `scale = 255 / range` — a `ZeroDivisionError`
when the range is zero, a `ValueError` from `min`/`max` on an empty input. -/
def generate_intensity_image (array : List ℚ) :
    Except String (List (List (ℚ × ℚ × ℚ))) :=
  match array with
  | [] => .error "ValueError: arg is an empty sequence"
  | _ :: _ =>
    let offset := list_min array
    let range := list_max array - offset
    if range = 0 then .error "ZeroDivisionError: division by zero"
    else .ok (generate_image array (intensity_rgb (255 / range) offset))

/-- `values` cut into `h` consecutive rows of width `w` (specification-side
description of the row-major partition; `generate_image_go` is proved to
produce exactly this when the length is `w * h`). -/
def chunksExact {α : Type} (w : Nat) : Nat → List α → List (List α)
  | 0, _ => []
  | h + 1, l => l.take w :: chunksExact w h (l.drop w)

/-! ## Theorems -/

/-- A handler call is never the `result` call. -/
theorem callOf_ne_result (ev : Event) : callOf ev ≠ Call.result := by
  cases h : ev.geometry <;> simp [callOf, h]

/-- On a fully well-formed source the driver loop dispatches every decoded
event in order, appends exactly those handler calls to the trace, and ends
with a single `result` call whose value it returns. -/
theorem perform_analysis_go_ok {σ R : Type} (a : AnalysisM σ R) :
    ∀ (rows : List (List String)) (evs : List Event) (s : σ) (tr : List Call),
      decode_all rows = some evs →
      perform_analysis_go a rows s tr =
        (.ok (a.result (evs.foldl (dispatch a) s)),
         tr ++ (evs.map callOf ++ [Call.result])) := by
  intro rows
  induction rows with
  | nil =>
    intro evs s tr h
    simp only [decode_all, Option.some.injEq] at h
    subst h
    simp [perform_analysis_go]
  | cons r rest ih =>
    intro evs s tr h
    simp only [decode_all] at h
    cases hr : decode_record r with
    | error e => rw [hr] at h; simp at h
    | ok ev =>
      rw [hr] at h
      cases hrest : decode_all rest with
      | none => rw [hrest] at h; simp at h
      | some evs' =>
        rw [hrest] at h
        simp at h
        subst h
        simp only [perform_analysis_go, hr]
        rw [ih evs' (dispatch a s ev) (tr ++ [callOf ev]) hrest]
        simp

/-- C1: for an event source of well-formed records decoding to the event
list `evs` (of length N), `perform_analysis` makes exactly the N handler
calls `evs.map callOf`, one per record, in source order, followed by
exactly one `result` call, and returns `result` of the state obtained by
folding the dispatches over the records in order. -/
theorem c1_replay_in_order {σ R : Type} (a : AnalysisM σ R) (s₀ : σ)
    (rows : List (List String)) (evs : List Event)
    (h : decode_all rows = some evs) :
    perform_analysis a s₀ rows =
      (.ok (a.result (evs.foldl (dispatch a) s₀)),
       evs.map callOf ++ [Call.result]) := by
  unfold perform_analysis
  rw [perform_analysis_go_ok a rows evs s₀ [] h]
  simp

/-- Witness for C1: the specification's three-record log (pixel `(0,0)`,
rectangle `(0,0)-(1,1)`, pixel `(1999,1999)`) replayed against the
counting analysis. -/
theorem c1_replay_in_order_witness :
    decode_all
        [["2022-04-04 00:53:51.577 UTC", "alice", "#fff", "0,0"],
         ["2022-04-04 00:53:52.123 UTC", "bob", "#000", "0,0,1,1"],
         ["2022-04-04 00:53:53.000 UTC", "carol", "#abc", "1999,1999"]] =
      some
        [⟨⟨2022, 4, 4, 0, 53, 51⟩, "alice", "#fff", .pixel 0 0⟩,
         ⟨⟨2022, 4, 4, 0, 53, 52⟩, "bob", "#000", .rectangle 0 0 1 1⟩,
         ⟨⟨2022, 4, 4, 0, 53, 53⟩, "carol", "#abc", .pixel 1999 1999⟩] ∧
    perform_analysis countingAnalysis (0, 0)
        [["2022-04-04 00:53:51.577 UTC", "alice", "#fff", "0,0"],
         ["2022-04-04 00:53:52.123 UTC", "bob", "#000", "0,0,1,1"],
         ["2022-04-04 00:53:53.000 UTC", "carol", "#abc", "1999,1999"]] =
      (.ok (countingAnalysis.result
        (([⟨⟨2022, 4, 4, 0, 53, 51⟩, "alice", "#fff", .pixel 0 0⟩,
           ⟨⟨2022, 4, 4, 0, 53, 52⟩, "bob", "#000", .rectangle 0 0 1 1⟩,
           ⟨⟨2022, 4, 4, 0, 53, 53⟩, "carol", "#abc", .pixel 1999 1999⟩] :
             List Event).foldl (dispatch countingAnalysis) (0, 0))),
       ([⟨⟨2022, 4, 4, 0, 53, 51⟩, "alice", "#fff", .pixel 0 0⟩,
         ⟨⟨2022, 4, 4, 0, 53, 52⟩, "bob", "#000", .rectangle 0 0 1 1⟩,
         ⟨⟨2022, 4, 4, 0, 53, 53⟩, "carol", "#abc", .pixel 1999 1999⟩] :
           List Event).map callOf ++ [Call.result]) := by
  refine ⟨?_, c1_replay_in_order countingAnalysis (0, 0) _ _ ?_⟩ <;> decide

/-- On a source containing a malformed record, the driver loop returns a
propagated error and its trace never contains the `result` call. -/
theorem perform_analysis_go_err {σ R : Type} (a : AnalysisM σ R) :
    ∀ (rows : List (List String)) (s : σ) (tr : List Call),
      decode_all rows = none → Call.result ∉ tr →
      (∃ e, (perform_analysis_go a rows s tr).1 = .error e) ∧
        Call.result ∉ (perform_analysis_go a rows s tr).2 := by
  intro rows
  induction rows with
  | nil => intro s tr h _; simp [decode_all] at h
  | cons r rest ih =>
    intro s tr h htr
    simp only [decode_all] at h
    cases hr : decode_record r with
    | error e =>
      simp only [perform_analysis_go, hr]
      exact ⟨⟨e, rfl⟩, htr⟩
    | ok ev =>
      rw [hr] at h
      cases hrest : decode_all rest with
      | none =>
        simp only [perform_analysis_go, hr]
        refine ih (dispatch a s ev) (tr ++ [callOf ev]) hrest ?_
        intro hm
        rcases List.mem_append.mp hm with h1 | h2
        · exact htr h1
        · rw [List.mem_singleton] at h2
          exact callOf_ne_result ev h2.symm
      | some evs' => rw [hrest] at h; simp at h

/-- C8: if some record of the source fails to decode, `perform_analysis`
propagates the failure (returns an error) and `result()` is never called:
the call trace contains no `result` call. -/
theorem c8_failure_aborts_before_result {σ R : Type} (a : AnalysisM σ R)
    (s₀ : σ) (rows : List (List String)) (h : decode_all rows = none) :
    (∃ e, (perform_analysis a s₀ rows).1 = .error e) ∧
      Call.result ∉ (perform_analysis a s₀ rows).2 := by
  unfold perform_analysis
  exact perform_analysis_go_err a rows s₀ [] h (by simp)

/-- Witness for C8: a log whose second record has the 3-token geometry
field `"5,5,10"` aborts the replay, and `result` is absent from the
trace. -/
theorem c8_failure_aborts_before_result_witness :
    decode_all
        [["2022-04-04 00:53:51.577 UTC", "alice", "#fff", "0,0"],
         ["2022-04-04 00:53:52.123 UTC", "bob", "#000", "5,5,10"]] = none ∧
    ((∃ e, (perform_analysis defaultAnalysis ()
        [["2022-04-04 00:53:51.577 UTC", "alice", "#fff", "0,0"],
         ["2022-04-04 00:53:52.123 UTC", "bob", "#000", "5,5,10"]]).1 = .error e) ∧
      Call.result ∉ (perform_analysis defaultAnalysis ()
        [["2022-04-04 00:53:51.577 UTC", "alice", "#fff", "0,0"],
         ["2022-04-04 00:53:52.123 UTC", "bob", "#000", "5,5,10"]]).2) :=
  ⟨by decide, c8_failure_aborts_before_result defaultAnalysis () _ (by decide)⟩

/-- A record whose geometry field holds exactly 2 integers decodes to a
pixel event with exactly those coordinates. -/
theorem decode_record_pixel (ts red col coordField : String)
    (rest : List String) (T : Timestamp) (x y : Int)
    (hts : fromisoformat19 ts = some T)
    (hco : parse_coordinates coordField = some [x, y]) :
    decode_record (ts :: red :: col :: coordField :: rest) =
      .ok ⟨T, red, col, .pixel x y⟩ := by
  unfold decode_record
  simp only []
  rw [hts]
  simp only []
  rw [hco]
  rfl

/-- A record whose geometry field holds exactly 4 integers decodes to a
rectangle event with exactly those coordinates, in field order. -/
theorem decode_record_rectangle (ts red col coordField : String)
    (rest : List String) (T : Timestamp) (x1 y1 x2 y2 : Int)
    (hts : fromisoformat19 ts = some T)
    (hco : parse_coordinates coordField = some [x1, y1, x2, y2]) :
    decode_record (ts :: red :: col :: coordField :: rest) =
      .ok ⟨T, red, col, .rectangle x1 y1 x2 y2⟩ := by
  unfold decode_record
  simp only []
  rw [hts]
  simp only []
  rw [hco]
  rfl

/-- A record whose geometry field holds any number of integers other than
2 or 4 fails to decode (the Python tuple unpack raises). -/
theorem decode_record_bad_count (ts red col coordField : String)
    (rest : List String) (T : Timestamp) (coords : List Int)
    (hts : fromisoformat19 ts = some T)
    (hco : parse_coordinates coordField = some coords)
    (h2 : coords.length ≠ 2) (h4 : coords.length ≠ 4) :
    decode_record (ts :: red :: col :: coordField :: rest) =
      .error "ValueError: cannot unpack coordinates" := by
  unfold decode_record
  simp only []
  rw [hts]
  simp only []
  rw [hco]
  simp only []
  rw [if_neg h4]
  match coords, h2 with
  | [], _ => rfl
  | [a], _ => rfl
  | [a, b], h2 => exact absurd rfl h2
  | a :: b :: c :: cs, _ => rfl

/-- A record whose 19-character timestamp prefix does not parse fails to
decode. -/
theorem decode_record_bad_timestamp (ts red col coordField : String)
    (rest : List String) (hts : fromisoformat19 ts = none) :
    decode_record (ts :: red :: col :: coordField :: rest) =
      .error "ValueError: invalid isoformat string" := by
  unfold decode_record
  simp only []
  rw [hts]

/-- Replaying a single record that decodes to `ev` makes exactly the one
handler call for `ev` and then the `result` call. -/
theorem perform_analysis_single_ok {σ R : Type} (a : AnalysisM σ R) (s : σ)
    (row : List String) (ev : Event) (h : decode_record row = .ok ev) :
    perform_analysis a s [row] =
      (.ok (a.result (dispatch a s ev)), [callOf ev, Call.result]) := by
  unfold perform_analysis perform_analysis_go
  rw [h]
  rfl

/-- Replaying a single record that fails to decode propagates the error
with no handler call and no `result` call. -/
theorem perform_analysis_single_err {σ R : Type} (a : AnalysisM σ R) (s : σ)
    (row : List String) (e : String) (h : decode_record row = .error e) :
    perform_analysis a s [row] = (.error e, []) := by
  unfold perform_analysis perform_analysis_go
  rw [h]

/-- C2: for a record whose geometry field parses to exactly 2 integers the
driver makes exactly one `on_pixel` call with those `(x, y)`; with exactly
4 integers, exactly one `on_rectangle` call with those `(x1, y1, x2, y2)`;
with any other token count the replay fails with a decode error and no
handler is called; and a record whose 19-character timestamp prefix does
not parse fails the same way. -/
theorem c2_decode_classification {σ R : Type} (a : AnalysisM σ R) (s : σ)
    (ts red col coordField : String) (rest : List String) (T : Timestamp) :
    (∀ x y : Int,
        fromisoformat19 ts = some T →
        parse_coordinates coordField = some [x, y] →
        perform_analysis a s [ts :: red :: col :: coordField :: rest] =
          (.ok (a.result (a.on_pixel s T red x y col)),
           [Call.on_pixel T red x y col, Call.result])) ∧
    (∀ x1 y1 x2 y2 : Int,
        fromisoformat19 ts = some T →
        parse_coordinates coordField = some [x1, y1, x2, y2] →
        perform_analysis a s [ts :: red :: col :: coordField :: rest] =
          (.ok (a.result (a.on_rectangle s T red x1 y1 x2 y2 col)),
           [Call.on_rectangle T red x1 y1 x2 y2 col, Call.result])) ∧
    (∀ coords : List Int,
        parse_coordinates coordField = some coords →
        coords.length ≠ 2 → coords.length ≠ 4 →
        ∃ e, perform_analysis a s [ts :: red :: col :: coordField :: rest] =
          (.error e, [])) ∧
    (fromisoformat19 ts = none →
        ∃ e, perform_analysis a s [ts :: red :: col :: coordField :: rest] =
          (.error e, [])) := by
  refine ⟨?_, ?_, ?_, ?_⟩
  · intro x y hts hco
    rw [perform_analysis_single_ok a s _ _
      (decode_record_pixel ts red col coordField rest T x y hts hco)]
    rfl
  · intro x1 y1 x2 y2 hts hco
    rw [perform_analysis_single_ok a s _ _
      (decode_record_rectangle ts red col coordField rest T x1 y1 x2 y2 hts hco)]
    rfl
  · intro coords hco h2 h4
    cases hts : fromisoformat19 ts with
    | none =>
      exact ⟨_, perform_analysis_single_err a s _ _
        (decode_record_bad_timestamp ts red col coordField rest hts)⟩
    | some T' =>
      exact ⟨_, perform_analysis_single_err a s _ _
        (decode_record_bad_count ts red col coordField rest T' coords hts hco h2 h4)⟩
  · intro hts
    exact ⟨_, perform_analysis_single_err a s _ _
      (decode_record_bad_timestamp ts red col coordField rest hts)⟩

/-- Witness for C2: a 2-token record yields the pixel call, the 3-token
geometry `"5,5,10"` and a non-numeric timestamp prefix each abort with no
handler call. -/
theorem c2_decode_classification_witness :
    perform_analysis defaultAnalysis ()
        [["2022-04-04 00:53:51.577 UTC", "alice", "#fff", "12,34"]] =
      (.ok (defaultAnalysis.result
          (defaultAnalysis.on_pixel () ⟨2022, 4, 4, 0, 53, 51⟩ "alice" 12 34 "#fff")),
       [Call.on_pixel ⟨2022, 4, 4, 0, 53, 51⟩ "alice" 12 34 "#fff", Call.result]) ∧
    (∃ e, perform_analysis defaultAnalysis ()
        [["2022-04-04 00:53:51.577 UTC", "alice", "#fff", "5,5,10"]] =
      (.error e, [])) ∧
    (∃ e, perform_analysis defaultAnalysis ()
        [["not-a-timestamp-xxx", "alice", "#fff", "12,34"]] =
      (.error e, [])) :=
  ⟨(c2_decode_classification defaultAnalysis () "2022-04-04 00:53:51.577 UTC"
      "alice" "#fff" "12,34" [] ⟨2022, 4, 4, 0, 53, 51⟩).1 12 34
      (by decide) (by decide),
   (c2_decode_classification defaultAnalysis () "2022-04-04 00:53:51.577 UTC"
      "alice" "#fff" "5,5,10" [] ⟨2022, 4, 4, 0, 53, 51⟩).2.2.1 [5, 5, 10]
      (by decide) (by decide) (by decide),
   (c2_decode_classification defaultAnalysis () "not-a-timestamp-xxx"
      "alice" "#fff" "12,34" [] ⟨0, 1, 1, 0, 0, 0⟩).2.2.2 (by decide)⟩

/-- C7 counterexample: the record with geometry field `"5,5,1,1"` is
accepted and dispatched to `on_rectangle` with `x1 = 5, x2 = 1`, violating
`x2 >= x1` — the driver performs no ordering validation. -/
theorem c7_counterexample_unordered_rect :
    (perform_analysis defaultAnalysis ()
        [["2022-04-04 00:53:51.577 UTC", "bob", "#000", "5,5,1,1"]]).2 =
      [Call.on_rectangle ⟨2022, 4, 4, 0, 53, 51⟩ "bob" 5 5 1 1 "#000",
       Call.result] ∧
    ¬((1 : Int) ≥ 5) := by
  decide

/-- C7 as amended: every record accepted with a 4-integer geometry field is
dispatched to `on_rectangle` with exactly the four decoded integers in
field order; no `x2 >= x1` / `y2 >= y1` relation is checked or
guaranteed. -/
theorem c7_amended_rect_exact_args {σ R : Type} (a : AnalysisM σ R) (s : σ)
    (ts red col coordField : String) (rest : List String) (T : Timestamp)
    (x1 y1 x2 y2 : Int)
    (hts : fromisoformat19 ts = some T)
    (hco : parse_coordinates coordField = some [x1, y1, x2, y2]) :
    perform_analysis a s [ts :: red :: col :: coordField :: rest] =
      (.ok (a.result (a.on_rectangle s T red x1 y1 x2 y2 col)),
       [Call.on_rectangle T red x1 y1 x2 y2 col, Call.result]) := by
  rw [perform_analysis_single_ok a s _ _
    (decode_record_rectangle ts red col coordField rest T x1 y1 x2 y2 hts hco)]
  rfl

/-- Witness for the amended C7, at the order-violating record
`"5,5,1,1"`. -/
theorem c7_amended_rect_exact_args_witness :
    fromisoformat19 "2022-04-04 00:53:51.577 UTC" = some ⟨2022, 4, 4, 0, 53, 51⟩ ∧
    parse_coordinates "5,5,1,1" = some [5, 5, 1, 1] ∧
    perform_analysis defaultAnalysis ()
        [["2022-04-04 00:53:51.577 UTC", "bob", "#000", "5,5,1,1"]] =
      (.ok (defaultAnalysis.result
          (defaultAnalysis.on_rectangle () ⟨2022, 4, 4, 0, 53, 51⟩ "bob" 5 5 1 1 "#000")),
       [Call.on_rectangle ⟨2022, 4, 4, 0, 53, 51⟩ "bob" 5 5 1 1 "#000",
        Call.result]) :=
  ⟨by decide, by decide,
   c7_amended_rect_exact_args defaultAnalysis () "2022-04-04 00:53:51.577 UTC"
     "bob" "#000" "5,5,1,1" [] ⟨2022, 4, 4, 0, 53, 51⟩ 5 5 1 1
     (by decide) (by decide)⟩

/-- `on_any_row` never touches the delegate's state. -/
theorem on_any_row_delegate {σ : Type} (ls : LoggerState σ) :
    (Logger.on_any_row ls).delegate_state = ls.delegate_state := by
  simp only [Logger.on_any_row]
  split <;> rfl

/-- `on_any_row` increments `rows_processed` by exactly one. -/
theorem on_any_row_rows {σ : Type} (ls : LoggerState σ) :
    (Logger.on_any_row ls).rows_processed = ls.rows_processed + 1 := by
  simp only [Logger.on_any_row]
  split <;> rfl

/-- Dispatching through the logger wrapper leaves in `delegate_state`
exactly what dispatching through the bare analysis produces. -/
theorem logger_dispatch_delegate {σ R : Type} (a : AnalysisM σ R)
    (ls : LoggerState σ) (ev : Event) :
    (dispatch (loggerAnalysis a) ls ev).delegate_state =
      dispatch a ls.delegate_state ev := by
  cases hg : ev.geometry <;>
    simp [dispatch, hg, loggerAnalysis, on_any_row_delegate]

/-- Replaying through the logger wrapper returns exactly what replaying
the bare delegate returns, with the identical driver call trace. -/
theorem logger_go_eq {σ R : Type} (a : AnalysisM σ R) :
    ∀ (rows : List (List String)) (ls : LoggerState σ) (tr : List Call),
      perform_analysis_go (loggerAnalysis a) rows ls tr =
        perform_analysis_go a rows ls.delegate_state tr := by
  intro rows
  induction rows with
  | nil => intro ls tr; rfl
  | cons r rest ih =>
    intro ls tr
    simp only [perform_analysis_go]
    cases hr : decode_record r with
    | error e => rfl
    | ok ev =>
      simp only []
      rw [ih (dispatch (loggerAnalysis a) ls ev) (tr ++ [callOf ev]),
        logger_dispatch_delegate a ls ev]

/-- C3: wrapping any analysis in `Logger` leaves the `result()` value of
the replay unchanged for any input and any reporting interval ≥ 1; each
wrapper handler forwards to the delegate with its arguments unchanged,
and the wrapper's `result` returns the delegate's result unchanged. -/
theorem c3_logger_transparent {σ R : Type} (a : AnalysisM σ R) (s₀ : σ)
    (rows : List (List String)) (interval : Nat) (h : 1 ≤ interval) :
    (perform_analysis (loggerAnalysis a) (Logger.init s₀ interval) rows).1 =
      (perform_analysis a s₀ rows).1 ∧
    (∀ (ls : LoggerState σ) t r x y c,
        ((loggerAnalysis a).on_pixel ls t r x y c).delegate_state =
          a.on_pixel ls.delegate_state t r x y c) ∧
    (∀ (ls : LoggerState σ) t r x1 y1 x2 y2 c,
        ((loggerAnalysis a).on_rectangle ls t r x1 y1 x2 y2 c).delegate_state =
          a.on_rectangle ls.delegate_state t r x1 y1 x2 y2 c) ∧
    (∀ ls : LoggerState σ, (loggerAnalysis a).result ls = a.result ls.delegate_state) := by
  refine ⟨?_, ?_, ?_, fun ls => rfl⟩
  · unfold perform_analysis
    rw [logger_go_eq a rows (Logger.init s₀ interval) []]
    rfl
  · intro ls t r x y c
    simp [loggerAnalysis, on_any_row_delegate]
  · intro ls t r x1 y1 x2 y2 c
    simp [loggerAnalysis, on_any_row_delegate]

/-- Witness for C3: the logger-wrapped counting analysis at interval 1
over a one-record log returns what the bare counting analysis returns. -/
theorem c3_logger_transparent_witness :
    1 ≤ 1 ∧
    ((perform_analysis (loggerAnalysis countingAnalysis)
          (Logger.init (0, 0) 1)
          [["2022-04-04 00:53:51.577 UTC", "alice", "#fff", "0,0"]]).1 =
        (perform_analysis countingAnalysis (0, 0)
          [["2022-04-04 00:53:51.577 UTC", "alice", "#fff", "0,0"]]).1 ∧
      (∀ (ls : LoggerState (Nat × Nat)) t r x y c,
          ((loggerAnalysis countingAnalysis).on_pixel ls t r x y c).delegate_state =
            countingAnalysis.on_pixel ls.delegate_state t r x y c) ∧
      (∀ (ls : LoggerState (Nat × Nat)) t r x1 y1 x2 y2 c,
          ((loggerAnalysis countingAnalysis).on_rectangle ls t r x1 y1 x2 y2 c).delegate_state =
            countingAnalysis.on_rectangle ls.delegate_state t r x1 y1 x2 y2 c) ∧
      (∀ ls : LoggerState (Nat × Nat),
          (loggerAnalysis countingAnalysis).result ls =
            countingAnalysis.result ls.delegate_state)) :=
  ⟨Nat.le_refl 1,
   c3_logger_transparent countingAnalysis (0, 0)
     [["2022-04-04 00:53:51.577 UTC", "alice", "#fff", "0,0"]] 1 (Nat.le_refl 1)⟩

/-- A logger dispatch that did not raise has incremented `rows_processed`
by exactly one. -/
theorem dispatchE_success_rows {σ : Type} (d : AnalysisE σ)
    (ls ls' : LoggerState σ) (e : Event)
    (h : LoggerE.dispatch d ls e = (ls', none)) :
    ls'.rows_processed = ls.rows_processed + 1 := by
  cases hg : e.geometry with
  | pixel x y =>
    simp only [LoggerE.dispatch, hg] at h
    unfold LoggerE.on_pixel at h
    cases hr : d.on_pixel ls.delegate_state e.timestamp e.redditor x y e.color with
    | error er => rw [hr] at h; simp at h
    | ok s' =>
      rw [hr] at h
      simp only [Prod.mk.injEq] at h
      rw [← h.1, on_any_row_rows]
  | rectangle x1 y1 x2 y2 =>
    simp only [LoggerE.dispatch, hg] at h
    unfold LoggerE.on_rectangle at h
    cases hr : d.on_rectangle ls.delegate_state e.timestamp e.redditor x1 y1 x2 y2 e.color with
    | error er => rw [hr] at h; simp at h
    | ok s' =>
      rw [hr] at h
      simp only [Prod.mk.injEq] at h
      rw [← h.1, on_any_row_rows]

/-- C10: if the delegate's handler raises, the logger's state (including
`rows_processed` and the console) is left exactly unchanged and the error
propagates; after a run of N events in which every delegate call
succeeded, `rows_processed` has grown by exactly N. -/
theorem c10_rows_counted_after_delegate {σ : Type} (d : AnalysisE σ) :
    (∀ (ls : LoggerState σ) t r x y c e,
        d.on_pixel ls.delegate_state t r x y c = .error e →
        LoggerE.on_pixel d ls t r x y c = (ls, some e)) ∧
    (∀ (ls : LoggerState σ) t r x1 y1 x2 y2 c e,
        d.on_rectangle ls.delegate_state t r x1 y1 x2 y2 c = .error e →
        LoggerE.on_rectangle d ls t r x1 y1 x2 y2 c = (ls, some e)) ∧
    (∀ (events : List Event) (ls : LoggerState σ),
        (LoggerE.run d events ls).2 = none →
        (LoggerE.run d events ls).1.rows_processed =
          ls.rows_processed + events.length) := by
  refine ⟨?_, ?_, ?_⟩
  · intro ls t r x y c e h
    unfold LoggerE.on_pixel
    rw [h]
  · intro ls t r x1 y1 x2 y2 c e h
    unfold LoggerE.on_rectangle
    rw [h]
  · intro events
    induction events with
    | nil => intro ls _; simp [LoggerE.run]
    | cons e rest ih =>
      intro ls h
      simp only [LoggerE.run] at h ⊢
      cases hd : LoggerE.dispatch d ls e with
      | mk ls' err =>
        cases err with
        | some msg =>
          rw [hd] at h
          exact Option.noConfusion h
        | none =>
          rw [hd] at h
          have h' : (LoggerE.run d rest ls').2 = none := h
          show (LoggerE.run d rest ls').1.rows_processed =
            ls.rows_processed + (e :: rest).length
          rw [ih ls' h', dispatchE_success_rows d ls ls' e hd]
          simp only [List.length_cons]
          omega

/-- Witness for C10: the threshold delegate raising on a pixel at
`x = -1` leaves the fresh logger state unchanged, while one successful
pixel call advances `rows_processed` from 0 to 1. -/
theorem c10_rows_counted_after_delegate_witness :
    LoggerE.on_pixel thresholdDelegate (Logger.init () 10000)
        ⟨2022, 4, 4, 0, 0, 0⟩ "alice" (-1) 0 "#fff" =
      (Logger.init () 10000, some "negative x") ∧
    (LoggerE.run thresholdDelegate
        [⟨⟨2022, 4, 4, 0, 0, 0⟩, "alice", "#fff", .pixel 3 4⟩]
        (Logger.init () 10000)).2 = none ∧
    (LoggerE.run thresholdDelegate
        [⟨⟨2022, 4, 4, 0, 0, 0⟩, "alice", "#fff", .pixel 3 4⟩]
        (Logger.init () 10000)).1.rows_processed =
      (Logger.init () 10000).rows_processed + 1 :=
  ⟨(c10_rows_counted_after_delegate thresholdDelegate).1
      (Logger.init () 10000) ⟨2022, 4, 4, 0, 0, 0⟩ "alice" (-1) 0 "#fff"
      "negative x" (by rfl),
   by rfl,
   (c10_rows_counted_after_delegate thresholdDelegate).2.2
      [⟨⟨2022, 4, 4, 0, 0, 0⟩, "alice", "#fff", .pixel 3 4⟩]
      (Logger.init () 10000) (by rfl)⟩

/-- `appendToLast` on a cons whose tail is nonempty descends into the
tail. -/
theorem appendToLast_cons {β : Type} (y : β) (r : List β)
    (t : List (List β)) (h : t ≠ []) :
    appendToLast y (r :: t) = r :: appendToLast y t := by
  cases t with
  | nil => exact absurd rfl h
  | cons c cs => rfl

/-- `appendToLast` only touches the last row, so a prefix of rows passes
through unchanged. -/
theorem appendToLast_append {β : Type} (y : β) (l₁ l₂ : List (List β))
    (h : l₂ ≠ []) :
    appendToLast y (l₁ ++ l₂) = l₁ ++ appendToLast y l₂ := by
  induction l₁ with
  | nil => rfl
  | cons r rs ih =>
    have hne : rs ++ l₂ ≠ [] := by
      intro hc
      exact h (List.append_eq_nil.mp hc).2
    rw [List.cons_append, appendToLast_cons y r (rs ++ l₂) hne, ih]
    rfl

/-- `appendToLast` preserves nonemptiness. -/
theorem appendToLast_ne_nil {β : Type} (y : β) (l : List (List β))
    (h : l ≠ []) : appendToLast y l ≠ [] := by
  cases l with
  | nil => exact absurd rfl h
  | cons r t =>
    cases t with
    | nil => simp [appendToLast]
    | cons c cs => simp [appendToLast]

/-- Flattening after `appendToLast` appends the one value. -/
theorem flatten_appendToLast {β : Type} (y : β) :
    ∀ (l : List (List β)), l ≠ [] →
      (appendToLast y l).flatten = l.flatten ++ [y] := by
  intro l
  induction l with
  | nil => intro h; exact absurd rfl h
  | cons r t ih =>
    intro _
    cases t with
    | nil => simp [appendToLast]
    | cons c cs =>
      rw [appendToLast_cons y r (c :: cs) (by simp)]
      simp only [List.flatten_cons]
      rw [ih (by simp)]
      simp [List.flatten_cons, List.append_assoc]

/-- The `generate_image` loop appends exactly the mapped input values to
the flattened grid, whatever the input length. -/
theorem generate_image_go_join {α β : Type} (f : α → β) :
    ∀ (l : List α) (k : Nat) (rgbs : List (List β)),
      (k % CANVAS_WIDTH ≠ 0 → rgbs ≠ []) →
      (generate_image_go f l k rgbs).flatten = rgbs.flatten ++ l.map f := by
  intro l
  induction l with
  | nil => intro k rgbs _; simp [generate_image_go]
  | cons v rest ih =>
    intro k rgbs hne
    simp only [generate_image_go]
    by_cases hk : k % CANVAS_WIDTH = 0
    · rw [if_pos hk]
      have h1 : appendToLast (f v) (rgbs ++ [[]]) = rgbs ++ [[f v]] := by
        rw [appendToLast_append (f v) rgbs [[]] (by simp)]
        rfl
      rw [h1, ih (k + 1) (rgbs ++ [[f v]]) (fun _ => by simp)]
      simp
    · rw [if_neg hk]
      have hrgbs := hne hk
      rw [ih (k + 1) (appendToLast (f v) rgbs)
        (fun _ => appendToLast_ne_nil _ _ hrgbs)]
      rw [flatten_appendToLast (f v) rgbs hrgbs]
      simp

/-- C4 counterexample: `generate_image` on the length-1 input `["x"]`
(length ≠ `CANVAS_WIDTH * CANVAS_HEIGHT`) silently builds and returns a
1×1 image instead of failing with a precondition error. -/
theorem c4_counterexample_no_length_check :
    generate_image ["x"] (fun v => v) = [["x"]] ∧
    ([("x" : String)].length ≠ CANVAS_WIDTH * CANVAS_HEIGHT) := by
  constructor
  · rfl
  · decide

/-- C4 as amended: `generate_image` performs no length check at all; for
every input, of any length, it builds and returns an image whose pixels in
row-major order are exactly the mapped input values — nothing truncated,
nothing padded, no error raised. -/
theorem c4_amended_no_precondition {α β : Type} (array : List α) (f : α → β) :
    (generate_image array f).flatten = array.map f := by
  unfold generate_image
  rw [generate_image_go_join f array 0 []
    (fun h => absurd (Nat.zero_mod CANVAS_WIDTH) h)]
  rfl

/-- The `generate_image` loop only consults `k` through `k % CANVAS_WIDTH`. -/
theorem generate_image_go_mod {α β : Type} (f : α → β) :
    ∀ (l : List α) (k k' : Nat) (rgbs : List (List β)),
      k % CANVAS_WIDTH = k' % CANVAS_WIDTH →
      generate_image_go f l k rgbs = generate_image_go f l k' rgbs := by
  intro l
  induction l with
  | nil => intro k k' rgbs _; rfl
  | cons v rest ih =>
    intro k k' rgbs h
    simp only [generate_image_go, h]
    exact ih (k + 1) (k' + 1) _ (by rw [Nat.add_mod, h, ← Nat.add_mod])

/-- While no index in the block hits a multiple of `CANVAS_WIDTH`, the
loop keeps appending to the current last row. -/
theorem generate_image_go_fill {α β : Type} (f : α → β) :
    ∀ (l₁ : List α) (l₂ : List α) (k : Nat) (r : List β) (rgbs : List (List β)),
      (∀ i, i < l₁.length → (k + i) % CANVAS_WIDTH ≠ 0) →
      generate_image_go f (l₁ ++ l₂) k (rgbs ++ [r]) =
        generate_image_go f l₂ (k + l₁.length) (rgbs ++ [r ++ l₁.map f]) := by
  intro l₁
  induction l₁ with
  | nil => intro l₂ k r rgbs _; simp
  | cons v t ih =>
    intro l₂ k r rgbs h
    have hk : k % CANVAS_WIDTH ≠ 0 := by
      have h0 := h 0 (by simp)
      simpa using h0
    simp only [List.cons_append, generate_image_go, if_neg hk, List.append_eq]
    have happ : appendToLast (f v) (rgbs ++ [r]) = rgbs ++ [r ++ [f v]] := by
      rw [appendToLast_append (f v) rgbs [r] (by simp)]
      rfl
    rw [happ, ih l₂ (k + 1) (r ++ [f v]) rgbs ?hcond]
    case hcond =>
      intro i hi
      have := h (i + 1) (by simp; omega)
      rw [show k + 1 + i = k + (i + 1) by omega]
      exact this
    have hlen : k + 1 + t.length = k + (v :: t).length := by
      simp [List.length_cons]; omega
    rw [hlen]
    simp [List.append_assoc]

/-- Starting a row boundary with a block of exactly `CANVAS_WIDTH` values
emits exactly one new complete row. -/
theorem generate_image_go_row {α β : Type} (f : α → β)
    (l₁ l₂ : List α) (k : Nat) (rgbs : List (List β))
    (h₁ : l₁.length = CANVAS_WIDTH) (hk : k % CANVAS_WIDTH = 0) :
    generate_image_go f (l₁ ++ l₂) k rgbs =
      generate_image_go f l₂ (k + CANVAS_WIDTH) (rgbs ++ [l₁.map f]) := by
  cases l₁ with
  | nil => simp [CANVAS_WIDTH] at h₁
  | cons v t =>
    simp only [List.cons_append, generate_image_go, if_pos hk, List.append_eq]
    have happ : appendToLast (f v) (rgbs ++ [[]]) = rgbs ++ [[f v]] := by
      rw [appendToLast_append (f v) rgbs [[]] (by simp)]
      rfl
    rw [happ, generate_image_go_fill f t l₂ (k + 1) [f v] rgbs ?hcond]
    case hcond =>
      intro i hi
      have ht : t.length + 1 = CANVAS_WIDTH := by
        simpa [List.length_cons] using h₁
      simp only [CANVAS_WIDTH] at hk ht ⊢
      omega
    have ht : t.length + 1 = CANVAS_WIDTH := by
      simpa [List.length_cons] using h₁
    have hlen : k + 1 + t.length = k + CANVAS_WIDTH := by omega
    rw [hlen]
    simp

/-- On an input whose length is `CANVAS_WIDTH * h`, the loop produces
exactly the `h` row-major chunks, mapped. -/
theorem generate_image_go_chunks {α β : Type} (f : α → β) :
    ∀ (h : Nat) (l : List α) (k : Nat) (rgbs : List (List β)),
      l.length = CANVAS_WIDTH * h → k % CANVAS_WIDTH = 0 →
      generate_image_go f l k rgbs =
        rgbs ++ (chunksExact CANVAS_WIDTH h l).map (List.map f) := by
  intro h
  induction h with
  | zero =>
    intro l k rgbs hl _
    have : l = [] := List.eq_nil_of_length_eq_zero (by simpa using hl)
    subst this
    simp [generate_image_go, chunksExact]
  | succ n ih =>
    intro l k rgbs hl hk
    have hw : CANVAS_WIDTH ≤ l.length := by
      rw [hl, Nat.mul_succ]
      omega
    have htake : (l.take CANVAS_WIDTH).length = CANVAS_WIDTH := by
      rw [List.length_take]
      omega
    have hdrop : (l.drop CANVAS_WIDTH).length = CANVAS_WIDTH * n := by
      rw [List.length_drop, hl, Nat.mul_succ]
      omega
    have hk' : (k + CANVAS_WIDTH) % CANVAS_WIDTH = 0 := by
      simp [Nat.add_mod, hk]
    calc generate_image_go f l k rgbs
        = generate_image_go f (l.take CANVAS_WIDTH ++ l.drop CANVAS_WIDTH) k rgbs := by
          rw [List.take_append_drop]
      _ = generate_image_go f (l.drop CANVAS_WIDTH) (k + CANVAS_WIDTH)
            (rgbs ++ [(l.take CANVAS_WIDTH).map f]) :=
          generate_image_go_row f _ _ k rgbs htake hk
      _ = (rgbs ++ [(l.take CANVAS_WIDTH).map f]) ++
            (chunksExact CANVAS_WIDTH n (l.drop CANVAS_WIDTH)).map (List.map f) :=
          ih _ (k + CANVAS_WIDTH) _ hdrop hk'
      _ = rgbs ++ (chunksExact CANVAS_WIDTH (n + 1) l).map (List.map f) := by
          simp [chunksExact, List.append_assoc]

/-- `generate_image` on an input of length `CANVAS_WIDTH * h` is the
mapped row-major chunking. -/
theorem generate_image_chunks {α β : Type} (array : List α) (f : α → β)
    (h : Nat) (hl : array.length = CANVAS_WIDTH * h) :
    generate_image array f =
      (chunksExact CANVAS_WIDTH h array).map (List.map f) := by
  unfold generate_image
  rw [generate_image_go_chunks f h array 0 [] hl (Nat.zero_mod _)]
  rfl

/-- `chunksExact` always produces exactly `h` rows. -/
theorem chunksExact_length {α : Type} (w : Nat) :
    ∀ (h : Nat) (l : List α), (chunksExact w h l).length = h := by
  intro h
  induction h with
  | zero => intro l; rfl
  | succ n ih => intro l; simp [chunksExact, ih]

/-- Every row of an exact chunking has length `w`. -/
theorem chunksExact_mem_length {α : Type} (w : Nat) :
    ∀ (h : Nat) (l : List α), l.length = w * h →
      ∀ c ∈ chunksExact w h l, c.length = w := by
  intro h
  induction h with
  | zero => intro l _ c hc; simp [chunksExact] at hc
  | succ n ih =>
    intro l hl c hc
    simp only [chunksExact, List.mem_cons] at hc
    rcases hc with rfl | hc
    · have hle : w ≤ l.length := by
        rw [hl]
        exact Nat.le_mul_of_pos_right w (Nat.succ_pos n)
      rw [List.length_take]
      omega
    · refine ih (l.drop w) ?_ c hc
      rw [List.length_drop, hl, Nat.mul_succ, Nat.add_sub_cancel]

/-- Row `y` of an exact chunking is the `w`-wide slice starting at
`w * y`. -/
theorem chunksExact_get? {α : Type} (w : Nat) :
    ∀ (h y : Nat) (l : List α), y < h →
      (chunksExact w h l).get? y = some ((l.drop (w * y)).take w) := by
  intro h
  induction h with
  | zero => intro y l hy; omega
  | succ n ih =>
    intro y l hy
    cases y with
    | zero => simp [chunksExact]
    | succ m =>
      simp only [chunksExact, List.get?_cons_succ]
      rw [ih m (l.drop w) (by omega), List.drop_drop]
      rw [show w + w * m = w * (m + 1) by ring]

/-- C9: on an input of length exactly `CANVAS_WIDTH * CANVAS_HEIGHT` and
for any color mapping, the generated image has exactly `CANVAS_HEIGHT`
rows of `CANVAS_WIDTH` pixels each, and the pixel at cell `(x, y)` is the
color mapping applied to `values[y * CANVAS_WIDTH + x]` (row-major). -/
theorem c9_render_row_major {α β : Type} (array : List α) (f : α → β)
    (hl : array.length = CANVAS_WIDTH * CANVAS_HEIGHT) :
    (generate_image array f).length = CANVAS_HEIGHT ∧
    (∀ row ∈ generate_image array f, row.length = CANVAS_WIDTH) ∧
    (∀ x y : Nat, x < CANVAS_WIDTH → y < CANVAS_HEIGHT →
        ((generate_image array f).get? y).bind (fun row => row.get? x) =
          (array.get? (y * CANVAS_WIDTH + x)).map f) := by
  have himg := generate_image_chunks array f CANVAS_HEIGHT hl
  refine ⟨?_, ?_, ?_⟩
  · rw [himg, List.length_map, chunksExact_length]
  · intro row hrow
    rw [himg] at hrow
    rcases List.mem_map.mp hrow with ⟨c, hc, rfl⟩
    rw [List.length_map]
    exact chunksExact_mem_length CANVAS_WIDTH CANVAS_HEIGHT array hl c hc
  · intro x y hx hy
    rw [himg, List.get?_map,
      chunksExact_get? CANVAS_WIDTH CANVAS_HEIGHT y array hy]
    simp only [Option.map_some', Option.some_bind]
    rw [List.get?_map, List.get?_take hx, List.get?_drop,
      Nat.mul_comm CANVAS_WIDTH y]

/-- Witness for C9: the all-zero aggregate array of the exact canvas
length, rendered with the grayscale-triple mapping. -/
theorem c9_render_row_major_witness :
    (List.replicate (CANVAS_WIDTH * CANVAS_HEIGHT) (0 : Nat)).length =
      CANVAS_WIDTH * CANVAS_HEIGHT ∧
    ((generate_image (List.replicate (CANVAS_WIDTH * CANVAS_HEIGHT) (0 : Nat))
        (fun v => (v, v, v))).length = CANVAS_HEIGHT ∧
      (∀ row ∈ generate_image
          (List.replicate (CANVAS_WIDTH * CANVAS_HEIGHT) (0 : Nat))
          (fun v => (v, v, v)), row.length = CANVAS_WIDTH) ∧
      (∀ x y : Nat, x < CANVAS_WIDTH → y < CANVAS_HEIGHT →
          ((generate_image (List.replicate (CANVAS_WIDTH * CANVAS_HEIGHT) (0 : Nat))
              (fun v => (v, v, v))).get? y).bind (fun row => row.get? x) =
            ((List.replicate (CANVAS_WIDTH * CANVAS_HEIGHT) (0 : Nat)).get?
              (y * CANVAS_WIDTH + x)).map (fun v => (v, v, v)))) :=
  ⟨by simp, c9_render_row_major _ _ (by simp)⟩

/-- C5 counterexample: on input `[10, 20]` (minimum 10, maximum 20) the
intensity mapping produces grayscale 245 for the minimum — not 0 — and 500
for the maximum — not 255 — because the code computes
`scale * intensity - offset` instead of `scale * (intensity - offset)`. -/
theorem c5_counterexample_offset_outside_product :
    generate_intensity_image [10, 20] =
      .ok [[((245 : ℚ), 245, 245), (500, 500, 500)]] ∧
    (245 : ℚ) ≠ 0 ∧ (500 : ℚ) ≠ 255 := by
  refine ⟨?_, by norm_num, by norm_num⟩
  norm_num [generate_intensity_image, list_min, list_max, generate_image,
    generate_image_go, appendToLast, intensity_rgb, CANVAS_WIDTH, min_def, max_def]

/-- C5 as amended: the code computes `scale * intensity - offset`
(line 217) rather than `scale * (intensity - offset)`, so on every
nonempty input with max > min the run succeeds and every output value is
the claimed linear rescaling `255 * (v - min) / (max - min)` plus the
constant shift `(scale - 1) * min`.  The claimed mapping — minimum to
gray 0, maximum to gray 255, intermediate values to their linear
interpolant — holds precisely when that shift is zero, which happens
exactly when `min = 0` or `max - min = 255`; in particular the
specification's example `[0, 10, 5]` maps as claimed
(exact-rational idealisation of Python floats). -/
theorem c5_amended_shifted_rescale (array : List ℚ)
    (hne : array ≠ []) (hlt : list_min array < list_max array) :
    generate_intensity_image array =
      .ok (generate_image array
        (intensity_rgb (255 / (list_max array - list_min array)) (list_min array))) ∧
    (∀ v : ℚ,
        intensity_rgb (255 / (list_max array - list_min array)) (list_min array) (v) =
          (255 * (v - list_min array) / (list_max array - list_min array) + (255 / (list_max array - list_min array) - 1) * list_min array,
           255 * (v - list_min array) / (list_max array - list_min array) + (255 / (list_max array - list_min array) - 1) * list_min array,
           255 * (v - list_min array) / (list_max array - list_min array) + (255 / (list_max array - list_min array) - 1) * list_min array)) ∧
    ((255 / (list_max array - list_min array) - 1) * list_min array = 0 →
        intensity_rgb (255 / (list_max array - list_min array)) (list_min array) (list_min array) = (0, 0, 0) ∧
        intensity_rgb (255 / (list_max array - list_min array)) (list_min array) (list_max array) = (255, 255, 255) ∧
        (∀ v : ℚ,
            intensity_rgb (255 / (list_max array - list_min array)) (list_min array) (v) =
              (255 * (v - list_min array) / (list_max array - list_min array), 255 * (v - list_min array) / (list_max array - list_min array), 255 * (v - list_min array) / (list_max array - list_min array)))) ∧
    (intensity_rgb (255 / (list_max array - list_min array)) (list_min array) (list_min array) = (0, 0, 0) ↔ (255 / (list_max array - list_min array) - 1) * list_min array = 0) ∧
    ((255 / (list_max array - list_min array) - 1) * list_min array = 0 ↔ list_min array = 0 ∨ (list_max array - list_min array) = 255) := by
  have hr : list_max array - list_min array ≠ 0 :=
    sub_ne_zero.mpr (ne_of_gt hlt)
  have hs : ∀ v : ℚ,
      (255 / (list_max array - list_min array)) * v - list_min array =
        255 * (v - list_min array) / (list_max array - list_min array) +
          (255 / (list_max array - list_min array) - 1) * list_min array := by
    intro v
    field_simp
    ring
  have key : ∀ v : ℚ,
      intensity_rgb (255 / (list_max array - list_min array))
          (list_min array) v =
        (255 * (v - list_min array) / (list_max array - list_min array) +
           (255 / (list_max array - list_min array) - 1) * list_min array,
         255 * (v - list_min array) / (list_max array - list_min array) +
           (255 / (list_max array - list_min array) - 1) * list_min array,
         255 * (v - list_min array) / (list_max array - list_min array) +
           (255 / (list_max array - list_min array) - 1) * list_min array) := by
    intro v
    simp [intensity_rgb, hs v]
  refine ⟨?_, key, ?_, ?_, ?_⟩
  · cases array with
    | nil => exact absurd rfl hne
    | cons a t =>
      simp only [generate_intensity_image]
      rw [if_neg hr]
  · intro hshift
    refine ⟨?_, ?_, fun v => ?_⟩
    · rw [key (list_min array), hshift]
      simp
    · rw [key (list_max array), hshift]
      rw [mul_div_assoc, div_self hr]
      norm_num
    · rw [key v, hshift]
      simp
  · constructor
    · intro h0
      rw [key (list_min array)] at h0
      simpa using h0
    · intro h0
      rw [key (list_min array), h0]
      simp
  · constructor
    · intro h0
      rcases mul_eq_zero.mp h0 with h | h
      · right
        have h1 := sub_eq_zero.mp h
        field_simp at h1
        linarith
      · left
        exact h
    · rintro (h | h)
      · rw [h, mul_zero]
      · rw [h]
        norm_num

/-- Witness for the amended C5 at `[10, 265]`: the minimum is 10 (not 0)
but the range is exactly 255, so the shift vanishes and the claimed
rescaling holds — the minimum maps to gray 0 and the maximum to 255. -/
theorem c5_amended_shifted_rescale_witness :
    ([(10 : ℚ), 265] ≠ []) ∧
    list_min [(10 : ℚ), 265] < list_max [(10 : ℚ), 265] ∧
    (generate_intensity_image [(10 : ℚ), 265] =
        .ok (generate_image [(10 : ℚ), 265]
          (intensity_rgb (255 / (list_max [(10 : ℚ), 265] - list_min [(10 : ℚ), 265])) (list_min [(10 : ℚ), 265]))) ∧
      (∀ v : ℚ,
          intensity_rgb (255 / (list_max [(10 : ℚ), 265] - list_min [(10 : ℚ), 265])) (list_min [(10 : ℚ), 265]) (v) =
            (255 * (v - list_min [(10 : ℚ), 265]) / (list_max [(10 : ℚ), 265] - list_min [(10 : ℚ), 265]) + (255 / (list_max [(10 : ℚ), 265] - list_min [(10 : ℚ), 265]) - 1) * list_min [(10 : ℚ), 265],
             255 * (v - list_min [(10 : ℚ), 265]) / (list_max [(10 : ℚ), 265] - list_min [(10 : ℚ), 265]) + (255 / (list_max [(10 : ℚ), 265] - list_min [(10 : ℚ), 265]) - 1) * list_min [(10 : ℚ), 265],
             255 * (v - list_min [(10 : ℚ), 265]) / (list_max [(10 : ℚ), 265] - list_min [(10 : ℚ), 265]) + (255 / (list_max [(10 : ℚ), 265] - list_min [(10 : ℚ), 265]) - 1) * list_min [(10 : ℚ), 265])) ∧
      ((255 / (list_max [(10 : ℚ), 265] - list_min [(10 : ℚ), 265]) - 1) * list_min [(10 : ℚ), 265] = 0 →
          intensity_rgb (255 / (list_max [(10 : ℚ), 265] - list_min [(10 : ℚ), 265])) (list_min [(10 : ℚ), 265]) (list_min [(10 : ℚ), 265]) = (0, 0, 0) ∧
          intensity_rgb (255 / (list_max [(10 : ℚ), 265] - list_min [(10 : ℚ), 265])) (list_min [(10 : ℚ), 265]) (list_max [(10 : ℚ), 265]) = (255, 255, 255) ∧
          (∀ v : ℚ,
              intensity_rgb (255 / (list_max [(10 : ℚ), 265] - list_min [(10 : ℚ), 265])) (list_min [(10 : ℚ), 265]) (v) =
                (255 * (v - list_min [(10 : ℚ), 265]) / (list_max [(10 : ℚ), 265] - list_min [(10 : ℚ), 265]), 255 * (v - list_min [(10 : ℚ), 265]) / (list_max [(10 : ℚ), 265] - list_min [(10 : ℚ), 265]), 255 * (v - list_min [(10 : ℚ), 265]) / (list_max [(10 : ℚ), 265] - list_min [(10 : ℚ), 265])))) ∧
      (intensity_rgb (255 / (list_max [(10 : ℚ), 265] - list_min [(10 : ℚ), 265])) (list_min [(10 : ℚ), 265]) (list_min [(10 : ℚ), 265]) = (0, 0, 0) ↔ (255 / (list_max [(10 : ℚ), 265] - list_min [(10 : ℚ), 265]) - 1) * list_min [(10 : ℚ), 265] = 0) ∧
      ((255 / (list_max [(10 : ℚ), 265] - list_min [(10 : ℚ), 265]) - 1) * list_min [(10 : ℚ), 265] = 0 ↔ list_min [(10 : ℚ), 265] = 0 ∨ (list_max [(10 : ℚ), 265] - list_min [(10 : ℚ), 265]) = 255)) :=
  ⟨by simp,
   by norm_num [list_min, list_max, min_def, max_def],
   c5_amended_shifted_rescale [(10 : ℚ), 265] (by simp)
     (by norm_num [list_min, list_max, min_def, max_def])⟩

/-- C6: the claim matches the intent the specification states, but the
code violates it — on the constant input `[7, 7, 7]` the range is 0 and
`scale = 255 / range` raises an (unhandled) `ZeroDivisionError`; no
fallback color is produced. -/
theorem c6_bug_degenerate_range_raises :
    generate_intensity_image [7, 7, 7] =
      .error "ZeroDivisionError: division by zero" := by
  norm_num [generate_intensity_image, list_min, list_max, min_def, max_def]

end RPlace
